import Mathlib

/-!
Shallow embedding of the seashore library (command argument serialization and
execution/output routing), translated from `src/seashore/command.py`,
`src/seashore/executor.py` and `src/seashore/shell.py`.
-/

namespace Seashore

/-- Tagged union of the option values the two `_keyword_arguments` dispatchers
can receive.  `noValue` is the absent marker (`_NoValue` in command.py,
`NO_VALUE` in executor.py); `other` stands for a value of any Python type with
no registered handler (carried here as its printed form). -/
inductive OptValue where
  | noValue : OptValue
  | eq : String → OptValue
  | str : String → OptValue
  | int : Int → OptValue
  | list : List String → OptValue
  | dict : List (String × String) → OptValue
  | other : String → OptValue
  deriving DecidableEq

/-- The payload of command.py's `ValueError("cannot process", value)`. -/
structure EncodingError where
  message : String
  value : String
  deriving DecidableEq

/-- command.py `_keyword_arguments` single dispatch: the base case raises
`ValueError("cannot process", value)`; `_NoValue` yields the bare key, `Eq`
yields `key=content`, `str` yields key then value, `int` yields key then the
decimal string, `list` yields key then element per element, `dict` yields key
then `K=V` per entry. -/
def command_keyword_arguments : OptValue → String → Except EncodingError (List String)
  | OptValue.noValue, key => Except.ok [key]
  | OptValue.eq content, key => Except.ok [key ++ "=" ++ content]
  | OptValue.str s, key => Except.ok [key, s]
  | OptValue.int n, key => Except.ok [key, toString n]
  | OptValue.list xs, key => Except.ok (xs.flatMap fun thing => [key, thing])
  | OptValue.dict kvs, key => Except.ok (kvs.flatMap fun p => [key, p.1 ++ "=" ++ p.2])
  | OptValue.other r, _ => Except.error ⟨"cannot process", r⟩

/-- executor.py `_keyword_arguments` single dispatch: the base case (which also
handles `NO_VALUE`, a bare `object()` with no registration) yields just the
key; the registered cases match command.py's. This dispatcher has no failing
branch. -/
def executor_keyword_arguments : OptValue → String → Except EncodingError (List String)
  | OptValue.noValue, key => Except.ok [key]
  | OptValue.eq content, key => Except.ok [key ++ "=" ++ content]
  | OptValue.str s, key => Except.ok [key, s]
  | OptValue.int n, key => Except.ok [key, toString n]
  | OptValue.list xs, key => Except.ok (xs.flatMap fun thing => [key, thing])
  | OptValue.dict kvs, key => Except.ok (kvs.flatMap fun p => [key, p.1 ++ "=" ++ p.2])
  | OptValue.other _, key => Except.ok [key]

/-- Python's `s.replace("_", "-")`: with a one-character pattern this is the
character-wise rewrite of underscores to hyphens. -/
def replaceUnderscores (s : String) : String :=
  String.mk (s.toList.map fun c => if c = '_' then '-' else c)

/-- Option-name normalization shared by `_Arguments.__iter__` and `cmd`:
`"--" + key.replace("_", "-")`. -/
def normalizeOptionName (key : String) : String :=
  "--" ++ replaceUnderscores key

/-- The kwargs loop shared by `_Arguments.__iter__` (command.py) and `cmd`
(executor.py): for each entry in insertion order, normalize the name and
append the dispatcher's tokens. Parameterized by the dispatcher. -/
def encodeKwargs (enc : OptValue → String → Except EncodingError (List String)) :
    List (String × OptValue) → Except EncodingError (List String)
  | [] => Except.ok []
  | (key, value) :: rest => do
      let ts ← enc value (normalizeOptionName key)
      let rs ← encodeKwargs enc rest
      Except.ok (ts ++ rs)

/-- command.py `_Arguments.__iter__`: yields the encoded kwargs first (in
insertion order, via command.py's dispatcher), then the positional args. -/
def argumentsIter (args : List String) (kwargs : List (String × OptValue)) :
    Except EncodingError (List String) := do
  let opts ← encodeKwargs command_keyword_arguments kwargs
  Except.ok (opts ++ args)

/-- executor.py `cmd(binary, *args, **kwargs)`: starts from `[binary]`,
extends with the positional args, then extends with the encoded kwargs in
insertion order (via executor.py's dispatcher). -/
def cmd (binary : String) (args : List String) (kwargs : List (String × OptValue)) :
    Except EncodingError (List String) := do
  let opts ← encodeKwargs executor_keyword_arguments kwargs
  Except.ok (binary :: (args ++ opts))

/-- shell.py's `Output` enum: `LOG`, `CAPTURE`, `PASS_THROUGH`. -/
inductive Output where
  | LOG : Output
  | CAPTURE : Output
  | PASS_THROUGH : Output
  deriving DecidableEq

/-- A Python value stored in a `RunArgs` field by `attrs.evolve` (attrs does
not validate, so any value can land in any field; command.py's `Command` only
ever routes its `**kwargs` here). -/
inductive RunVal where
  | vb : Bool → RunVal
  | vo : Output → RunVal
  | vs : String → RunVal
  deriving DecidableEq

/-- shell.py's `RunArgs` as command.py's `Command` holds it: fields `text`,
`check`, `output`, populated by keyword without validation. -/
structure RunArgsD where
  text : RunVal
  check : RunVal
  output : RunVal
  deriving DecidableEq

/-- The `RunArgs()` defaults: `text=True`, `check=True`, `output=PASS_THROUGH`
(the source writes the default as the bare name `PASS_THROUGH`; the enum member
is the only referent). -/
def defaultRunArgsD : RunArgsD :=
  ⟨RunVal.vb true, RunVal.vb true, RunVal.vo Output.PASS_THROUGH⟩

/-- `attrs.evolve(run_args, **kwargs)` on the frozen `RunArgs` class: each
keyword that names a field replaces that field; a keyword naming no field
makes the underlying `__init__` raise `TypeError` (carried here as the
offending key). -/
def evolveRunArgs (r : RunArgsD) : List (String × RunVal) → Except String RunArgsD
  | [] => Except.ok r
  | (key, v) :: rest =>
      if key = "text" then evolveRunArgs { r with text := v } rest
      else if key = "check" then evolveRunArgs { r with check := v } rest
      else if key = "output" then evolveRunArgs { r with output := v } rest
      else Except.error key

/-- command.py's `Command`: a frozen record of subcommand segments, positional
cmd args and a `RunArgs`. It has no option mapping. -/
structure Command where
  subcommand : List String
  cmd_args : List String
  run_args : RunArgsD
  deriving DecidableEq

/-- `Command.__getattr__`: normalizes the attribute name (underscores to
hyphens) and appends it to the subcommand path of a fresh `Command`. -/
def commandGetattr (c : Command) (name : String) : Command :=
  { c with subcommand := c.subcommand ++ [replaceUnderscores name] }

/-- `Command.__call__(cmd_args=None, **kwargs)`: extends the positional args
when `cmd_args` is given, and hands every keyword to
`attrs.evolve(self._run_args, **kwargs)` — so a keyword outside
{text, check, output} raises `TypeError`. -/
def commandCall (c : Command) (cmd_args : Option (List String))
    (kwargs : List (String × RunVal)) : Except String Command := do
  let new_cmd_args :=
    match cmd_args with
    | some xs => c.cmd_args ++ xs
    | none => c.cmd_args
  let new_run_args ← evolveRunArgs c.run_args kwargs
  Except.ok { subcommand := c.subcommand, cmd_args := new_cmd_args, run_args := new_run_args }

/-- `Command.__radd__`: the flattening of a `Command` to the argument list
handed to the shell — subcommand segments followed by the cmd args. -/
def commandToArgv (c : Command) : List String :=
  c.subcommand ++ c.cmd_args

/-- shell.py's `RunArgs` at its annotated types, as `Shell.run_command`
consumes it. -/
structure RunArgs where
  text : Bool
  check : Bool
  output : Output
  deriving DecidableEq

/-- The observable behavior of the spawned process: its exit status and what
it writes on the two streams. -/
structure ProcBehavior where
  returncode : Int
  stdout : String
  stderr : String
  deriving DecidableEq

/-- `subprocess.CompletedProcess`: `stdout`/`stderr` are `None` unless the
stream was captured in memory. -/
structure CompletedProcess where
  args : List String
  returncode : Int
  stdout : Option String
  stderr : Option String
  deriving DecidableEq

/-- `subprocess.CalledProcessError`: raised by `subprocess.run` on non-zero
exit when `check=True`; carries the command, the exit status and the captured
streams (None when not captured). -/
structure CalledProcessError where
  returncode : Int
  cmd : List String
  stdout : Option String
  stderr : Option String
  deriving DecidableEq

/-- `subprocess.run(cmd_args, check=..., capture_output=...)`: on non-zero
exit with `check` set it raises `CalledProcessError`; otherwise it returns a
`CompletedProcess` whose `returncode` field holds the exit status. -/
def subprocess_run (beh : ProcBehavior) (cmd_args : List String)
    (check capture : Bool) : Except CalledProcessError CompletedProcess :=
  let out := if capture then some beh.stdout else none
  let err := if capture then some beh.stderr else none
  if check ∧ beh.returncode ≠ 0 then
    Except.error ⟨beh.returncode, cmd_args, out, err⟩
  else
    Except.ok ⟨cmd_args, beh.returncode, out, err⟩

/-- shell.py's `VisibleCalledProcessError.from_called_process_error`: wraps
the original exception together with a dict of its `stdout`, `stderr` and
`cmd`. -/
structure VisibleCalledProcessError where
  exc : CalledProcessError
  stdout : Option String
  stderr : Option String
  cmd : List String
  deriving DecidableEq

/-- The keyword arguments `run_command` assembles for `subprocess.run`:
redirect targets for the two streams (file paths, opened when
`output == LOG`) and the `capture_output` flag (set when `output ==
CAPTURE`). -/
structure OutputArgs where
  stdoutFile : Option String
  stderrFile : Option String
  captureOutput : Bool
  deriving DecidableEq

/-- What `run_command` hands back to its caller: the source's `except` clause
ends in `return VisibleCalledProcessError.from_called_process_error(exc) from
None`, so the wrapped error comes back as a normal return value. -/
inductive RunOutcome where
  | completed : CompletedProcess → RunOutcome
  | returnedError : VisibleCalledProcessError → RunOutcome
  deriving DecidableEq

/-- `Shell.run_command(cmd_args, run_args)`. In `LOG` mode a uuid4 string is
drawn (injected here as `uuid`) and both stream redirects are opened at
`log_dir / (root_name + ".out")` — the source opens the `".out"` name for
`stderr` as well. The spawn itself is `subprocess.run` with `check` and
`text` from `run_args`; a `CalledProcessError` is caught and the wrapped
error returned as a value. -/
def run_command (log_dir uuid : String) (beh : ProcBehavior)
    (cmd_args : List String) (run_args : RunArgs) : OutputArgs × RunOutcome :=
  let output_args : OutputArgs :=
    match run_args.output with
    | Output.LOG =>
        let root_name := uuid
        ⟨some (log_dir ++ "/" ++ root_name ++ ".out"),
         some (log_dir ++ "/" ++ root_name ++ ".out"), false⟩
    | Output.CAPTURE => ⟨none, none, true⟩
    | Output.PASS_THROUGH => ⟨none, none, false⟩
  match subprocess_run beh cmd_args run_args.check output_args.captureOutput with
  | Except.ok cp => (output_args, RunOutcome.completed cp)
  | Except.error exc =>
      (output_args,
       RunOutcome.returnedError ⟨exc, exc.stdout, exc.stderr, exc.cmd⟩)

/-- A Python dict used as an environment mapping, as an insertion-ordered
association list. A value of `none` models the Python value `None` stored
under the key (distinct from the key being absent). -/
abbrev EnvMap := List (String × Option String)

/-- Dict lookup: `none` when the key is absent, `some v` when present with
value `v`. -/
def envGet (m : EnvMap) (k : String) : Option (Option String) :=
  (m.find? fun p => p.1 = k).map fun p => p.2

/-- `d.pop(key, "")`: removes the key when present, no-op otherwise. -/
def envPop (m : EnvMap) (k : String) : EnvMap :=
  m.filter fun p => p.1 ≠ k

/-- `d[key] = value`: overwrites in place when the key is present (Python
dicts keep the original insertion position), appends otherwise. -/
def envSet : EnvMap → String → Option String → EnvMap
  | [], k, v => [(k, v)]
  | (k', v') :: rest, k, v =>
      if k' = k then (k, v) :: rest else (k', v') :: envSet rest k v

/-- The loop body of `Shell.patch_env` applied over the kwargs in order: when
the value is `None` the key is first popped, and then — the source has no
`else` — `new_env[key] = value` runs unconditionally, re-inserting the key
bound to `None`. -/
def patchEnvMap (m : EnvMap) : List (String × Option String) → EnvMap
  | [] => m
  | (key, value) :: rest =>
      match value with
      | none => patchEnvMap (envSet (envPop m key) key none) rest
      | some s => patchEnvMap (envSet m key (some s)) rest

/-- The heap of live environment dicts; a `Shell`'s `env` field is a
reference (index) into it. -/
abbrev Store := List EnvMap

/-- Dereference an environment dict. -/
def readRef (st : Store) (i : Nat) : EnvMap :=
  st.getD i []

/-- shell.py's `Shell`, with `env` as a reference into the store (Python
dicts are aliased mutable objects; `cwd` as path segments). -/
structure Shell where
  cwd : List String
  envRef : Nat
  log_dir : String
  deriving DecidableEq

/-- `Shell.patch_env(**kwargs)`: `new_env = dict(self.env)` copies the dict
into a fresh allocation, the loop mutates only that fresh dict, and
`attrs.evolve(self, env=new_env)` returns a new `Shell` pointing at it. -/
def patch_env (st : Store) (sh : Shell) (kwargs : List (String × Option String)) :
    Store × Shell :=
  let new_env := patchEnvMap (readRef st sh.envRef) kwargs
  (st ++ [new_env], { sh with envRef := st.length })

/-- `Shell.chdir(new_dir)`: `attrs.evolve(self, cwd=self.cwd / new_dir)` —
no dict is touched. -/
def chdir (st : Store) (sh : Shell) (new_dir : String) : Store × Shell :=
  (st, { sh with cwd := sh.cwd ++ [new_dir] })

/-- `_ExecutoredCommand.__getattr__`: `subcommand.rstrip('_')` drops every
trailing underscore, then `.replace('_', '-')` rewrites the remaining
underscores, over the character list of the attribute name. -/
def subcommandToken (s : List Char) : List Char :=
  ((s.reverse.dropWhile fun c => c = '_').reverse).map
    fun c => if c = '_' then '-' else c

/-- Modelled from the spec: `Executor.prepare` is referenced by
`_ExecutoredCommand.__call__`/`__getattr__` and by `Executor.command` but its
definition is absent from executor.py; per the spec's Executor/Runner
boundary it serializes the received arguments with `cmd` (binary name first)
and binds the result to the shell for running. Only the argv is modelled. -/
def prepare (binary : String) (args : List String)
    (kwargs : List (String × OptValue)) : Except EncodingError (List String) :=
  cmd binary args kwargs

/-- `Executor.pip_install(pkg_ids, index_url=None)`: defaults `index_url` to
the executor's `pypi`, adds `extra_index_url` to the kwargs when set, and
builds `self.pip.install(*pkg_ids, **kwargs)` — via
`_ExecutoredCommand.__getattr__` this is `prepare("pip", "install",
*pkg_ids, **kwargs)`. Only the argv is modelled (`.batch()` runs it). -/
def pip_install (pypi : Option String) (pkg_ids : List String)
    (index_url : Option String) : Except EncodingError (List String) :=
  let index_url := match index_url with
    | none => pypi
    | some u => some u
  let kwargs := match index_url with
    | none => []
    | some u => [("extra_index_url", OptValue.str u)]
  prepare "pip" ((String.mk (subcommandToken "install".toList)) :: pkg_ids) kwargs

/-! Helper lemmas. -/

lemma dropWhile_replicate_underscore_append (n : Nat) (l : List Char) :
    List.dropWhile (fun c => c = '_') (List.replicate n '_' ++ l) =
      List.dropWhile (fun c => c = '_') l := by
  induction n with
  | zero => rfl
  | succ k ih => simp [List.replicate_succ, List.dropWhile, ih]

lemma underscore_not_mem_subcommandToken (s : List Char) :
    '_' ∉ subcommandToken s := by
  intro h
  rcases List.mem_map.mp h with ⟨c, _, hc⟩
  by_cases h' : c = '_' <;> simp [h'] at hc

/-- C10: the subcommand token for an attribute name is formed by first
stripping every trailing underscore and then replacing the remaining
underscores with hyphens: trailing underscores never reach the token (so
`import_` maps to `import`, letting reserved words name subcommands), and no
underscore survives in the token. -/
theorem subcommand_token_strips_trailing_underscores (s : List Char) (n : Nat) :
    subcommandToken (s ++ List.replicate n '_') = subcommandToken s
    ∧ '_' ∉ subcommandToken s
    ∧ subcommandToken "import_".toList = "import".toList
    ∧ subcommandToken "docker_machine".toList = "docker-machine".toList := by
  refine ⟨?_, underscore_not_mem_subcommandToken s, by decide, by decide⟩
  unfold subcommandToken
  rw [List.reverse_append, List.reverse_replicate,
    dropWhile_replicate_underscore_append]

/-- C8: a sequence-valued option encodes, element by element in order, to the
option name followed by that element — exactly the single-value string
encoding of each element concatenated — so `channel=["a","b"]` yields
`["--channel","a","--channel","b"]`; executor.py's dispatcher agrees. -/
theorem list_option_encoding (key : String) (xs : List String) :
    command_keyword_arguments (OptValue.list xs) key =
      Except.ok (xs.flatMap fun t => [key, t])
    ∧ (∀ t : String,
        command_keyword_arguments (OptValue.str t) key = Except.ok [key, t])
    ∧ executor_keyword_arguments (OptValue.list xs) key =
      Except.ok (xs.flatMap fun t => [key, t])
    ∧ encodeKwargs command_keyword_arguments [("channel", OptValue.list ["a", "b"])] =
      Except.ok ["--channel", "a", "--channel", "b"] := by
  refine ⟨rfl, fun t => rfl, rfl, rfl⟩

/-- C4 counterexample: executor.py's dispatcher, handed a value of an
unregistered type (a float, printed "1.5"), silently produces the bare option
name as its token sequence instead of failing with an encoding error. -/
theorem executor_encoder_unsupported_silent :
    executor_keyword_arguments (OptValue.other "1.5") "--x" = Except.ok ["--x"] := by
  rfl

/-- C4 (amended): command.py's dispatcher fails on an unsupported value tag
with `ValueError("cannot process", value)` naming the offending value;
executor.py's dispatcher never fails — its default case (which also serves
the absent-marker `NO_VALUE`) silently emits just the option name for any
unregistered value. -/
theorem unsupported_value_encoding (r key : String) :
    command_keyword_arguments (OptValue.other r) key =
      Except.error ⟨"cannot process", r⟩
    ∧ executor_keyword_arguments (OptValue.other r) key = Except.ok [key] := by
  exact ⟨rfl, rfl⟩

/-- C3 counterexample: a spec with positional arg `attrs` and option
`quiet=NO_VALUE` flattens — through `_Arguments.__iter__` feeding
`Command.__call__`/`__radd__` — to `["install", "--quiet", "attrs"]`: the
subcommand comes first, but the option token precedes the positional
argument, not the other way round. -/
theorem toargv_option_tokens_precede_args :
    argumentsIter ["attrs"] [("quiet", OptValue.noValue)] =
      Except.ok ["--quiet", "attrs"]
    ∧ commandCall ⟨["install"], [], defaultRunArgsD⟩ (some ["--quiet", "attrs"]) [] =
      Except.ok ⟨["install"], ["--quiet", "attrs"], defaultRunArgsD⟩
    ∧ commandToArgv ⟨["install"], ["--quiet", "attrs"], defaultRunArgsD⟩ =
      ["install", "--quiet", "attrs"]
    ∧ ["install", "--quiet", "attrs"] ≠ ["install", "attrs", "--quiet"] := by
  exact ⟨rfl, rfl, rfl, by decide⟩

/-- C3 (amended): executor.py's `cmd` emits the binary, then the positional
arguments, then the encoded option tokens in insertion order — so
`pip_install(["attrs"], index_url="https://x")` yields an argv ending in
`["install", "attrs", "--extra-index-url", "https://x"]` — but command.py's
`_Arguments` flattening emits the option tokens before the positional
arguments. -/
theorem argv_ordering (binary : String) (args : List String)
    (kwargs : List (String × OptValue)) :
    cmd binary args kwargs =
      (encodeKwargs executor_keyword_arguments kwargs).map
        (fun opts => binary :: (args ++ opts))
    ∧ argumentsIter args kwargs =
      (encodeKwargs command_keyword_arguments kwargs).map (fun opts => opts ++ args)
    ∧ pip_install none ["attrs"] (some "https://x") =
      Except.ok ["pip", "install", "attrs", "--extra-index-url", "https://x"] := by
  refine ⟨?_, ?_, rfl⟩
  · unfold cmd
    cases encodeKwargs executor_keyword_arguments kwargs <;> rfl
  · unfold argumentsIter
    cases encodeKwargs command_keyword_arguments kwargs <;> rfl

/-- C5 counterexample: `Command.__call__` hands every keyword to
`attrs.evolve` on the run args, so the arbitrary option key `index_url` is
not merged into any option mapping — the call fails with a `TypeError`
naming it. -/
theorem command_call_option_key_fails :
    commandCall ⟨["install"], [], defaultRunArgsD⟩ (some ["attrs"])
        [("index_url", RunVal.vs "https://x")] = Except.error "index_url" := by
  rfl

lemma evolveRunArgs_error_of_unknown (r : RunArgsD)
    (kwargs : List (String × RunVal)) (k : String) (v : RunVal)
    (hmem : (k, v) ∈ kwargs) (ht : k ≠ "text") (hc : k ≠ "check")
    (ho : k ≠ "output") : ∃ msg, evolveRunArgs r kwargs = Except.error msg := by
  induction kwargs generalizing r with
  | nil => cases hmem
  | cons p rest ih =>
      obtain ⟨key, val⟩ := p
      rcases List.mem_cons.mp hmem with heq | hrest
      · obtain ⟨hk, _⟩ := Prod.mk.injEq .. ▸ heq
        cases heq
        simp only [evolveRunArgs, if_neg ht, if_neg hc, if_neg ho]
        exact ⟨k, rfl⟩
      · by_cases h1 : key = "text"
        · subst h1; exact ih _ hrest
        · by_cases h2 : key = "check"
          · subst h2; simp only [evolveRunArgs, if_neg (by decide : ¬("check" = "text"))]
            exact ih _ hrest
          · by_cases h3 : key = "output"
            · subst h3
              simp only [evolveRunArgs, if_neg (by decide : ¬("output" = "text")),
                if_neg (by decide : ¬("output" = "check"))]
              exact ih _ hrest
            · simp only [evolveRunArgs, if_neg h1, if_neg h2, if_neg h3]
              exact ⟨key, rfl⟩

/-- C5 (amended): `call` appends the positional args to `cmd_args` and applies
the keyword overrides to the run args alone — the result is exactly
`attrs.evolve(run_args, **kwargs)` threaded into a copy of the spec — and any
keyword outside {text, check, output} makes the call fail with a `TypeError`;
no option merge occurs, the spec carrying no option mapping. -/
theorem command_call_kwargs_update_run_args (c : Command) (xs : List String)
    (kwargs : List (String × RunVal)) :
    commandCall c (some xs) kwargs =
      (evolveRunArgs c.run_args kwargs).map
        (fun r => { subcommand := c.subcommand, cmd_args := c.cmd_args ++ xs,
                    run_args := r })
    ∧ (∀ k v, (k, v) ∈ kwargs → k ≠ "text" → k ≠ "check" → k ≠ "output" →
        ∃ msg, commandCall c (some xs) kwargs = Except.error msg) := by
  have hmap : commandCall c (some xs) kwargs =
      (evolveRunArgs c.run_args kwargs).map
        (fun r => { subcommand := c.subcommand, cmd_args := c.cmd_args ++ xs,
                    run_args := r }) := by
    unfold commandCall
    cases evolveRunArgs c.run_args kwargs <;> rfl
  refine ⟨hmap, fun k v hmem ht hc ho => ?_⟩
  obtain ⟨msg, hmsg⟩ := evolveRunArgs_error_of_unknown c.run_args kwargs k v hmem ht hc ho
  exact ⟨msg, by rw [hmap, hmsg]; rfl⟩

/-- C5 witness: applying the amended theorem at a concrete spec shows both
halves — the call equals the evolve-threaded copy, and the unknown key
`quiet` makes it fail. -/
theorem command_call_kwargs_update_run_args_witness :
    ∃ msg, commandCall ⟨["st"], ["a"], defaultRunArgsD⟩ (some ["b"])
        [("quiet", RunVal.vb true)] = Except.error msg :=
  (command_call_kwargs_update_run_args ⟨["st"], ["a"], defaultRunArgsD⟩ ["b"]
      [("quiet", RunVal.vb true)]).2 "quiet" (RunVal.vb true)
    (by simp) (by decide) (by decide) (by decide)

/-- C7: calling a `Command` with no positional args and no keywords returns a
spec equal to the receiver, so its flattening to an argument vector is
unchanged. -/
theorem command_call_empty_identity (c : Command) :
    ∃ c', commandCall c none [] = Except.ok c'
      ∧ commandToArgv c' = commandToArgv c := by
  exact ⟨c, rfl, rfl⟩

/-- C2: patching with the unset sentinel leaves the key PRESENT, bound to
`None`: starting from `{"A": "1"}`, `patch_env(A=None)` pops the key and then
unconditionally re-inserts it, so the derived context's environment still
holds `A` (mapped to `None`); starting from an empty environment the patch
even creates the key instead of being a no-op. -/
theorem patch_env_unset_leaves_key_present :
    envGet
      (readRef (patch_env [[("A", some "1")]] ⟨[], 0, "logs"⟩ [("A", none)]).1
        (patch_env [[("A", some "1")]] ⟨[], 0, "logs"⟩ [("A", none)]).2.envRef)
      "A" = some none
    ∧ envGet
      (readRef (patch_env [[]] ⟨[], 0, "logs"⟩ [("A", none)]).1
        (patch_env [[]] ⟨[], 0, "logs"⟩ [("A", none)]).2.envRef)
      "A" = some none
    ∧ envGet
      (readRef (patch_env [[]] ⟨[], 0, "logs"⟩ [("B", some "2")]).1
        (patch_env [[]] ⟨[], 0, "logs"⟩ [("B", some "2")]).2.envRef)
      "B" = some (some "2") := by
  exact ⟨rfl, rfl, rfl⟩

/-- C9: deriving a context never touches the receiver: `patch_env` copies the
environment dict into a fresh allocation and returns a new `Shell` pointing
at it — the dict the receiver references is unchanged, as are its `cwd` and
`log_dir` — and `chdir` leaves the store and the receiver's environment
reference intact. -/
theorem context_derivation_preserves_receiver (st : Store) (sh : Shell)
    (kwargs : List (String × Option String)) (d : String)
    (h : sh.envRef < st.length) :
    readRef (patch_env st sh kwargs).1 sh.envRef = readRef st sh.envRef
    ∧ (patch_env st sh kwargs).2.cwd = sh.cwd
    ∧ (patch_env st sh kwargs).2.log_dir = sh.log_dir
    ∧ (patch_env st sh kwargs).2.envRef ≠ sh.envRef
    ∧ (chdir st sh d).1 = st
    ∧ (chdir st sh d).2.envRef = sh.envRef
    ∧ (chdir st sh d).2.log_dir = sh.log_dir := by
    refine ⟨?_, rfl, rfl, ?_, rfl, rfl, rfl⟩
    · unfold patch_env readRef
      exact List.getD_append _ _ _ _ h
    · exact fun heq => absurd (heq ▸ h) (lt_irrefl _)

/-- C9 witness: the frame property applied at a one-dict store. -/
theorem context_derivation_preserves_receiver_witness :
    (0 : Nat) < ([[("A", some "1")]] : Store).length
    ∧ readRef
        (patch_env [[("A", some "1")]] ⟨[], 0, "L"⟩ [("B", none)]).1 0 =
      readRef [[("A", some "1")]] 0 :=
  ⟨by decide,
   (context_derivation_preserves_receiver [[("A", some "1")]] ⟨[], 0, "L"⟩
      [("B", none)] "sub" (by decide)).1⟩

/-- C1: with `check=True`, a command exiting 1 does NOT propagate the error —
`run_command` catches the `CalledProcessError` and hands the wrapped
`VisibleCalledProcessError` back as a normal return value (the source's
`return ... from None`); with `check=False` the non-zero exit comes back as a
normal `CompletedProcess` whose `returncode` field is 1 and nothing is
raised. -/
theorem run_command_returns_error_value :
    run_command "/logs" "u" ⟨1, "boom", "warn"⟩ ["false"]
        ⟨true, true, Output.CAPTURE⟩ =
      (⟨none, none, true⟩,
       RunOutcome.returnedError
         ⟨⟨1, ["false"], some "boom", some "warn"⟩, some "boom", some "warn",
          ["false"]⟩)
    ∧ run_command "/logs" "u" ⟨1, "boom", "warn"⟩ ["false"]
        ⟨true, false, Output.CAPTURE⟩ =
      (⟨none, none, true⟩,
       RunOutcome.completed ⟨["false"], 1, some "boom", some "warn"⟩) := by
  constructor <;> rfl

/-- C6: in `LOG` mode both stream redirects are opened at the SAME
`{log_dir}/{uuid}.out` path — the source opens the `.out` name for stderr
too, so stderr is never sent to a distinct `{uuid}.err` file. -/
theorem log_mode_files_share_out_name :
    (run_command "/logs" "u123" ⟨0, "hi", ""⟩ ["echo"]
        ⟨true, true, Output.LOG⟩).1 =
      ⟨some "/logs/u123.out", some "/logs/u123.out", false⟩
    ∧ (run_command "/logs" "u123" ⟨0, "hi", ""⟩ ["echo"]
        ⟨true, true, Output.LOG⟩).1.stderrFile =
      (run_command "/logs" "u123" ⟨0, "hi", ""⟩ ["echo"]
        ⟨true, true, Output.LOG⟩).1.stdoutFile
    ∧ (run_command "/logs" "u123" ⟨0, "hi", ""⟩ ["echo"]
        ⟨true, true, Output.LOG⟩).1.stderrFile ≠ some "/logs/u123.err" := by
  refine ⟨rfl, rfl, ?_⟩
  intro h
  simp only [run_command] at h
  exact absurd (Option.some.inj h) (by decide)

end Seashore
